import Mathlib

/-!
Verification of the action-selection and prioritization engine of the
repository (file `.github/scripts/opencog_action_selector.py`), shallowly
embedded in Lean.  Timestamps are embedded as integer epoch seconds; the
Python `timedelta.days` floor division is `Int.fdiv` by 86400.  The float
priorities and multipliers are embedded as exact rationals.  The Python
dictionary returned by `_calculate_health_metrics` (which is `{}` for an
empty repository list and is everywhere read through `dict.get` with a
zero default) is embedded as `Option HealthMetrics` together with getter
functions realising the defaulted reads.
-/

namespace OpencogSelector

/-- A repository snapshot, the fields of the GitHub repository JSON object
that the selector reads: `updated_at` (epoch seconds), `language` and
`description` (both nullable). -/
structure Repo where
  name : String
  updated_at : Int
  language : Option String
  description : Option String
deriving DecidableEq, Repr

/-- The health-metrics dictionary built by `_calculate_health_metrics`. -/
structure HealthMetrics where
  total_repos : Nat
  active_repos : Nat
  outdated_repos : Nat
  security_alerts : Nat
  needs_documentation : Nat
  languages : List (String × Nat)
deriving DecidableEq, Repr

/-- `dict.get('total_repos', 0)` on a possibly-empty metrics dictionary. -/
def get_total_repos : Option HealthMetrics → Nat
  | none => 0
  | some m => m.total_repos

/-- `dict.get('active_repos', 0)`. -/
def get_active_repos : Option HealthMetrics → Nat
  | none => 0
  | some m => m.active_repos

/-- `dict.get('outdated_repos', 0)`. -/
def get_outdated_repos : Option HealthMetrics → Nat
  | none => 0
  | some m => m.outdated_repos

/-- `dict.get('needs_documentation', 0)`. -/
def get_needs_documentation : Option HealthMetrics → Nat
  | none => 0
  | some m => m.needs_documentation

/-- `dict.get('languages', {})`. -/
def get_languages : Option HealthMetrics → List (String × Nat)
  | none => []
  | some m => m.languages

/-- `days_since_update = (now - updated_at).days`: Python `timedelta.days`
is the floor of the elapsed seconds divided by 86400. -/
def days_since_update (now : Int) (r : Repo) : Int :=
  Int.fdiv (now - r.updated_at) 86400

/-- The branch `if days_since_update <= 30` of the metrics loop. -/
def is_active (now : Int) (r : Repo) : Bool :=
  days_since_update now r ≤ 30

/-- The branch `elif days_since_update > 90` of the metrics loop: taken
only when the `<= 30` test failed. -/
def is_outdated (now : Int) (r : Repo) : Bool :=
  !(days_since_update now r ≤ 30 : Bool) && (90 < days_since_update now r : Bool)

/-- `not repo.get('description') or len(repo.get('description', '')) < 10`:
a missing or empty description is falsy; otherwise the length test runs on
the description itself. -/
def needs_doc (r : Repo) : Bool :=
  match r.description with
  | none => true
  | some s => (s = "" : Bool) || (s.length < 10 : Bool)

/-- `metrics['languages'][lang] = metrics['languages'].get(lang, 0) + 1`
on an insertion-ordered dictionary embedded as an association list. -/
def updateLang (langs : List (String × Nat)) (l : String) : List (String × Nat) :=
  if langs.any (fun p => p.1 = l) then
    langs.map (fun p => if p.1 = l then (p.1, p.2 + 1) else p)
  else
    langs ++ [(l, 1)]

/-- One iteration of the `for repo in repos` loop of
`_calculate_health_metrics`. -/
def stepRepo (now : Int) (m : HealthMetrics) (r : Repo) : HealthMetrics :=
  { m with
    active_repos := m.active_repos + (if is_active now r then 1 else 0)
    outdated_repos := m.outdated_repos + (if is_outdated now r then 1 else 0)
    languages :=
      (match r.language with
       | none => m.languages
       | some l => if l = "" then m.languages else updateLang m.languages l)
    needs_documentation := m.needs_documentation + (if needs_doc r then 1 else 0) }

/-- `_calculate_health_metrics`: returns the empty dictionary (`none`) when
`repos` is empty, otherwise folds the counting loop over the list, starting
from the initial dictionary with `total_repos = len(repos)` and all other
counters zero. -/
def calculate_health_metrics (now : Int) (repos : List Repo) : Option HealthMetrics :=
  match repos with
  | [] => none
  | _ :: _ =>
    some (repos.foldl (stepRepo now)
      { total_repos := repos.length, active_repos := 0, outdated_repos := 0,
        security_alerts := 0, needs_documentation := 0, languages := [] })

/-- A value of an action's heterogeneous `parameters` dictionary. -/
inductive PValue where
  | pBool : Bool → PValue
  | pNat : Nat → PValue
  | pInt : Int → PValue
  | pStr : String → PValue
deriving DecidableEq, Repr

/-- An action dictionary as built by the catalog functions.  `priority`,
`goal`, `target_repo` and `calculated_utility` are read in the source via
`dict.get`, so each is optional here; `calculated_utility` is `none` until
the prioritizer writes it. -/
structure Action where
  type : String
  priority : Option ℚ
  goal : Option String
  target_repo : Option String
  parameters : List (String × PValue)
  calculated_utility : Option ℚ
deriving DecidableEq, Repr

/-- The part of the context dictionary the selection pipeline reads:
`context.get('repositories', [])` and `context.get('health_metrics', {})`. -/
structure Context where
  repositories : List Repo
  health_metrics : Option HealthMetrics
deriving DecidableEq, Repr

/-- The organization-wide analysis action of `_select_analysis_actions`. -/
def analyze_org_action : Action :=
  { type := "analyze_organization", priority := some 1, goal := some "understanding",
    target_repo := some "all",
    parameters := [("include_metrics", PValue.pBool true), ("include_trends", PValue.pBool true)],
    calculated_utility := none }

/-- The per-repository analysis action of `_select_analysis_actions`. -/
def analyze_repo_action (r : Repo) (d : Int) : Action :=
  { type := "analyze_repository", priority := some (8/10), goal := some "maintenance",
    target_repo := some r.name,
    parameters := [("repo_name", PValue.pStr r.name), ("days_since_update", PValue.pInt d),
      ("check_issues", PValue.pBool true), ("check_security", PValue.pBool true)],
    calculated_utility := none }

/-- `_select_analysis_actions`: the organization action followed by one
`analyze_repository` action per repository not updated in over 30 days,
in repository-list order. -/
def select_analysis_actions (now : Int) (repos : List Repo)
    (metrics : Option HealthMetrics) : List Action :=
  analyze_org_action ::
    repos.filterMap (fun r =>
      let d := days_since_update now r
      if 30 < d then some (analyze_repo_action r d) else none)

/-- `_select_sync_actions`: always a single profile-sync action. -/
def select_sync_actions (repos : List Repo) (metrics : Option HealthMetrics) : List Action :=
  [{ type := "sync_organization_profile", priority := some 1, goal := some "consistency",
     target_repo := some "all",
     parameters := [("update_statistics", PValue.pBool true),
       ("refresh_repo_list", PValue.pBool true)],
     calculated_utility := none }]

/-- The documentation-health action of `_select_health_actions`. -/
def doc_health_action (n : Nat) : Action :=
  { type := "check_documentation_health", priority := some (9/10), goal := some "quality",
    target_repo := some "all",
    parameters := [("missing_docs_count", PValue.pNat n)],
    calculated_utility := none }

/-- The activity-health action of `_select_health_actions`. -/
def activity_health_action (n : Nat) : Action :=
  { type := "check_activity_health", priority := some (7/10), goal := some "maintenance",
    target_repo := some "all",
    parameters := [("outdated_count", PValue.pNat n)],
    calculated_utility := none }

/-- `_select_health_actions`: a documentation-health action when
`metrics.get('needs_documentation', 0) > 0`, then an activity-health
action when `metrics.get('outdated_repos', 0) > 0`. -/
def select_health_actions (repos : List Repo) (metrics : Option HealthMetrics) : List Action :=
  (if 0 < get_needs_documentation metrics
   then [doc_health_action (get_needs_documentation metrics)] else []) ++
  (if 0 < get_outdated_repos metrics
   then [activity_health_action (get_outdated_repos metrics)] else [])

/-- `_select_security_actions`: always a single organization scan action. -/
def select_security_actions (repos : List Repo) (metrics : Option HealthMetrics) : List Action :=
  [{ type := "security_scan_organization", priority := some 1, goal := some "security",
     target_repo := some "all",
     parameters := [("scan_vulnerabilities", PValue.pBool true),
       ("check_permissions", PValue.pBool true), ("audit_access", PValue.pBool true)],
     calculated_utility := none }]

/-- `_select_comprehensive_actions`: analysis, then sync, then health. -/
def select_comprehensive_actions (now : Int) (repos : List Repo)
    (metrics : Option HealthMetrics) : List Action :=
  select_analysis_actions now repos metrics ++ select_sync_actions repos metrics ++
    select_health_actions repos metrics

/-- Python `str.strip()` on an action-target name: drop leading and
trailing whitespace characters. -/
def pyStrip (s : String) : String :=
  String.mk (((s.data.dropWhile Char.isWhitespace).reverse.dropWhile Char.isWhitespace).reverse)

/-- Helper for `str.split(',')`: accumulate the current segment (reversed)
while scanning the character list. -/
def splitCommaAux : List Char → List Char → List String
  | [], acc => [String.mk acc.reverse]
  | c :: cs, acc =>
    if c = ',' then String.mk acc.reverse :: splitCommaAux cs [] else splitCommaAux cs (c :: acc)

/-- Python `str.split(',')`: split on every comma, keeping empty segments. -/
def pySplitComma (s : String) : List String :=
  splitCommaAux s.data []

/-- `[repo.strip() for repo in target_repos.split(',')]`. -/
def parse_target_list (target_repos : String) : List String :=
  (pySplitComma target_repos).map pyStrip

/-- The membership test of the list comprehension on lines 131–132:
`action.get('target_repo', 'all') in target_list or
action.get('target_repo') == 'all'`. -/
def target_filter_test (target_list : List String) (a : Action) : Bool :=
  ((a.target_repo.getD "all") ∈ target_list : Bool) || (a.target_repo = some "all" : Bool)

/-- The target-repository filtering stage of `select_actions`
(lines 129–132): skipped entirely when `target_repos == 'all'`. -/
def filter_targets (target_repos : String) (actions : List Action) : List Action :=
  if target_repos = "all" then actions
  else actions.filter (target_filter_test (parse_target_list target_repos))

/-- The per-action utility computation of `_prioritize_actions`: start
from `action.get('priority', 0.5)` and apply the three independent
sequential boosts. -/
def utility_of (outdated : Nat) (a : Action) : ℚ :=
  let utility := a.priority.getD (1/2)
  let utility := if a.goal = some "security" then utility * (13/10) else utility
  let utility := if a.goal = some "maintenance" ∧ 3 < outdated then utility * (12/10) else utility
  let utility := if a.goal = some "understanding" then utility * (11/10) else utility
  utility

/-- `action['calculated_utility'] = utility`: the annotation the loop in
`_prioritize_actions` performs on each action. -/
def annotate (outdated : Nat) (a : Action) : Action :=
  { a with calculated_utility := some (utility_of outdated a) }

/-- The sort key `x.get('calculated_utility', 0)`. -/
def utilKey (a : Action) : ℚ :=
  a.calculated_utility.getD 0

/-- The ordering used by `sorted(actions, key=..., reverse=True)`:
`a` may precede `b` exactly when `a`'s key is at least `b`'s. -/
def utilDescRel (a b : Action) : Prop :=
  utilKey b ≤ utilKey a

instance : DecidableRel utilDescRel :=
  fun a b => inferInstanceAs (Decidable (utilKey b ≤ utilKey a))

instance : IsTotal Action utilDescRel :=
  ⟨fun a b => le_total (utilKey b) (utilKey a)⟩

instance : IsTrans Action utilDescRel :=
  ⟨fun _ _ _ hab hbc => le_trans hbc hab⟩

/-- `_prioritize_actions`: annotate every action with its calculated
utility, then sort by that utility descending; Python's `sorted` is
stable, which `List.insertionSort` with `utilDescRel` realises. -/
def prioritize_actions (actions : List Action) (context : Context) : List Action :=
  List.insertionSort utilDescRel
    (actions.map (annotate (get_outdated_repos context.health_metrics)))

/-- `select_actions`: catalog dispatch on the action type, target
filtering, then prioritization. -/
def select_actions (now : Int) (action_type target_repos : String)
    (context : Context) : List Action :=
  let repos := context.repositories
  let metrics := context.health_metrics
  let actions :=
    if action_type = "analyze" then select_analysis_actions now repos metrics
    else if action_type = "sync" then select_sync_actions repos metrics
    else if action_type = "health_check" then select_health_actions repos metrics
    else if action_type = "security_scan" then select_security_actions repos metrics
    else select_comprehensive_actions now repos metrics
  prioritize_actions (filter_targets target_repos actions) context

/-- Utility derivation exactly as the specification words it (§4.4): the
initial value is the base priority; three independent sequential
conditionals multiply by 1.3 for security, by 1.2 for maintenance when
more than 3 repositories are outdated, and by 1.1 for understanding. -/
def claim_utility (outdated : Nat) (goal : Option String) (base : ℚ) : ℚ :=
  let u := base
  let u := if goal = some "security" then u * (13/10) else u
  let u := if goal = some "maintenance" ∧ 3 < outdated then u * (12/10) else u
  let u := if goal = some "understanding" then u * (11/10) else u
  u

/-! ### Lemmas about the health-metrics fold -/

lemma foldl_total (now : Int) :
    ∀ (l : List Repo) (m : HealthMetrics),
      (l.foldl (stepRepo now) m).total_repos = m.total_repos := by
  intro l
  induction l with
  | nil => intro m; rfl
  | cons r t ih =>
    intro m
    rw [List.foldl_cons, ih]
    rfl

lemma foldl_active (now : Int) :
    ∀ (l : List Repo) (m : HealthMetrics),
      (l.foldl (stepRepo now) m).active_repos =
        m.active_repos + l.countP (is_active now) := by
  intro l
  induction l with
  | nil => intro m; simp
  | cons r t ih =>
    intro m
    rw [List.foldl_cons, ih, List.countP_cons]
    simp only [stepRepo]
    cases h : is_active now r <;> simp [h] <;> omega

lemma foldl_outdated (now : Int) :
    ∀ (l : List Repo) (m : HealthMetrics),
      (l.foldl (stepRepo now) m).outdated_repos =
        m.outdated_repos + l.countP (is_outdated now) := by
  intro l
  induction l with
  | nil => intro m; simp
  | cons r t ih =>
    intro m
    rw [List.foldl_cons, ih, List.countP_cons]
    simp only [stepRepo]
    cases h : is_outdated now r <;> simp [h] <;> omega

lemma foldl_needs_doc (now : Int) :
    ∀ (l : List Repo) (m : HealthMetrics),
      (l.foldl (stepRepo now) m).needs_documentation =
        m.needs_documentation + l.countP needs_doc := by
  intro l
  induction l with
  | nil => intro m; simp
  | cons r t ih =>
    intro m
    rw [List.foldl_cons, ih, List.countP_cons]
    simp only [stepRepo]
    cases h : needs_doc r <;> simp [h] <;> omega

lemma get_total_eq (now : Int) (repos : List Repo) :
    get_total_repos (calculate_health_metrics now repos) = repos.length := by
  cases repos with
  | nil => rfl
  | cons r t =>
    simp only [calculate_health_metrics, get_total_repos]
    rw [foldl_total]

lemma get_active_eq (now : Int) (repos : List Repo) :
    get_active_repos (calculate_health_metrics now repos) =
      repos.countP (is_active now) := by
  cases repos with
  | nil => rfl
  | cons r t =>
    simp only [calculate_health_metrics, get_active_repos]
    rw [foldl_active]
    simp

lemma get_outdated_eq (now : Int) (repos : List Repo) :
    get_outdated_repos (calculate_health_metrics now repos) =
      repos.countP (is_outdated now) := by
  cases repos with
  | nil => rfl
  | cons r t =>
    simp only [calculate_health_metrics, get_outdated_repos]
    rw [foldl_outdated]
    simp

lemma get_needs_doc_eq (now : Int) (repos : List Repo) :
    get_needs_documentation (calculate_health_metrics now repos) =
      repos.countP needs_doc := by
  cases repos with
  | nil => rfl
  | cons r t =>
    simp only [calculate_health_metrics, get_needs_documentation]
    rw [foldl_needs_doc]
    simp

lemma needs_doc_iff (r : Repo) :
    needs_doc r = true ↔
      (r.description = none ∨ (r.description.getD "").length < 10) := by
  cases h : r.description with
  | none => simp [needs_doc, h]
  | some s =>
    simp only [needs_doc, h, Option.getD_some, Bool.or_eq_true, decide_eq_true_eq,
      reduceCtorEq, false_or]
    constructor
    · rintro (rfl | hl)
      · decide
      · exact hl
    · exact fun hl => Or.inr hl

lemma active_not_outdated (now : Int) (r : Repo) (h : is_active now r = true) :
    is_outdated now r = false := by
  simp only [is_active, decide_eq_true_eq] at h
  simp [is_outdated, decide_eq_true h]

lemma active_or_outdated_iff (now : Int) (r : Repo) :
    (is_active now r = true ∨ is_outdated now r = true) ↔
      ¬ (30 < days_since_update now r ∧ days_since_update now r ≤ 90) := by
  simp only [is_active, is_outdated, Bool.and_eq_true, Bool.not_eq_true',
    decide_eq_true_eq, decide_eq_false_iff_not]
  omega

lemma countP_disjoint (p q : Repo → Bool) (hpq : ∀ a, p a = true → q a = false) :
    ∀ l : List Repo,
      l.countP p + l.countP q ≤ l.length ∧
        (l.countP p + l.countP q = l.length ↔ ∀ a ∈ l, p a = true ∨ q a = true) := by
  intro l
  induction l with
  | nil => simp
  | cons a t ih =>
    rcases ih with ⟨ih1, ih2⟩
    rw [List.countP_cons, List.countP_cons, List.length_cons]
    cases hp : p a <;> cases hq : q a
    · simp only [hp, hq, Bool.false_eq_true, if_false, add_zero, List.forall_mem_cons,
        false_or, false_and, iff_false]
      exact ⟨by omega, by omega⟩
    · simp only [hp, hq, Bool.false_eq_true, if_false, if_true, add_zero,
        List.forall_mem_cons, false_or, or_true, true_and]
      refine ⟨by omega, ?_⟩
      rw [← ih2]
      omega
    · simp only [hp, hq, Bool.false_eq_true, if_false, if_true, add_zero,
        List.forall_mem_cons, or_false, true_or, true_and]
      refine ⟨by omega, ?_⟩
      rw [← ih2]
      omega
    · exact absurd (hpq a hp) (by simp [hq])

/-- C4: on an empty repository list the metrics aggregator yields zero for
every counter read and an empty language histogram, with no failure. -/
theorem claim_C4 (now : Int) :
    get_total_repos (calculate_health_metrics now []) = 0 ∧
    get_active_repos (calculate_health_metrics now []) = 0 ∧
    get_outdated_repos (calculate_health_metrics now []) = 0 ∧
    get_needs_documentation (calculate_health_metrics now []) = 0 ∧
    get_languages (calculate_health_metrics now []) = [] :=
  ⟨rfl, rfl, rfl, rfl, rfl⟩

/-- A repository whose description is exactly 10 characters long. -/
def repo_desc10 : Repo :=
  { name := "sample", updated_at := 0, language := none,
    description := some "abcdefghij" }

/-- C3 counterexample: the claim says a repository whose description has
length ≤ 10 is counted toward the documentation-gap counter, but the code
tests `len(...) < 10`, so a 10-character description is not counted. -/
theorem claim_C3_counterexample :
    ¬ (0 < get_needs_documentation (calculate_health_metrics 0 [repo_desc10]) ↔
        (repo_desc10.description = none ∨
          (repo_desc10.description.getD "").length ≤ 10)) := by
  decide

/-- C3 (amended): a repository counts toward the documentation-gap counter
iff its description is absent, empty, or strictly shorter than 10
characters. -/
theorem claim_C3 (now : Int) (pre post : List Repo) (r : Repo) :
    get_needs_documentation (calculate_health_metrics now (pre ++ r :: post)) =
      get_needs_documentation (calculate_health_metrics now (pre ++ post)) +
        (if r.description = none ∨ (r.description.getD "").length < 10
         then 1 else 0) := by
  rw [get_needs_doc_eq, get_needs_doc_eq, List.countP_append, List.countP_append,
    List.countP_cons]
  by_cases hd : r.description = none ∨ (r.description.getD "").length < 10
  · rw [if_pos hd, if_pos ((needs_doc_iff r).mpr hd)]
    omega
  · rw [if_neg hd, if_neg (by simp only [needs_doc_iff]; exact hd)]
    omega

/-- C5: the active and outdated counters never jointly exceed the total,
with equality exactly when no repository has staleness in the 31–90 day
band. -/
theorem claim_C5 (now : Int) (repos : List Repo) :
    get_active_repos (calculate_health_metrics now repos) +
        get_outdated_repos (calculate_health_metrics now repos) ≤
      get_total_repos (calculate_health_metrics now repos) ∧
      (get_active_repos (calculate_health_metrics now repos) +
          get_outdated_repos (calculate_health_metrics now repos) =
        get_total_repos (calculate_health_metrics now repos) ↔
        ∀ r ∈ repos,
          ¬ (30 < days_since_update now r ∧ days_since_update now r ≤ 90)) := by
  rw [get_active_eq, get_outdated_eq, get_total_eq]
  have h := countP_disjoint (is_active now) (is_outdated now)
    (active_not_outdated now) repos
  refine ⟨h.1, h.2.trans ?_⟩
  constructor
  · intro hall r hr
    exact (active_or_outdated_iff now r).mp (hall r hr)
  · intro hall r hr
    exact (active_or_outdated_iff now r).mpr (hall r hr)

/-! ### Lemmas about the prioritizer -/

lemma annotate_annotate (n : Nat) (a : Action) :
    annotate n (annotate n a) = annotate n a := rfl

/-- Forgetting any calculated-utility value already present on an action. -/
def erase_utility (a : Action) : Action :=
  { a with calculated_utility := none }

lemma annotate_erase (n : Nat) (a : Action) :
    annotate n (erase_utility a) = annotate n a := rfl

lemma map_eq_self_of_mem {f : Action → Action} :
    ∀ l : List Action, (∀ a ∈ l, f a = a) → l.map f = l := by
  intro l
  induction l with
  | nil => intro _; rfl
  | cons a t ih =>
    intro h
    rw [List.map_cons, h a (by simp), ih (fun b hb => h b (by simp [hb]))]

lemma filter_orderedInsert_of_ne (q : ℚ) (x : Action) (hx : ¬ utilKey x = q) :
    ∀ s : List Action,
      (s.orderedInsert utilDescRel x).filter (fun a => decide (utilKey a = q)) =
        s.filter (fun a => decide (utilKey a = q)) := by
  intro s
  induction s with
  | nil => simp [hx]
  | cons y ys ih =>
    simp only [List.orderedInsert]
    split
    · simp [List.filter_cons, hx]
    · simp only [List.filter_cons]
      rw [ih]

lemma filter_orderedInsert_of_eq (q : ℚ) (x : Action) (hx : utilKey x = q) :
    ∀ s : List Action,
      (s.orderedInsert utilDescRel x).filter (fun a => decide (utilKey a = q)) =
        x :: s.filter (fun a => decide (utilKey a = q)) := by
  intro s
  induction s with
  | nil => simp [hx]
  | cons y ys ih =>
    simp only [List.orderedInsert]
    by_cases h : utilDescRel x y
    · rw [if_pos h]
      simp [List.filter_cons, hx]
    · rw [if_neg h]
      have hy : ¬ (utilKey y = q) := by
        intro he
        exact h (le_of_eq (he.trans hx.symm))
      simp only [List.filter_cons, ih]
      simp [hy]

lemma filter_insertionSort (q : ℚ) :
    ∀ l : List Action,
      (l.insertionSort utilDescRel).filter (fun a => decide (utilKey a = q)) =
        l.filter (fun a => decide (utilKey a = q)) := by
  intro l
  induction l with
  | nil => rfl
  | cons x xs ih =>
    simp only [List.insertionSort]
    by_cases hx : utilKey x = q
    · rw [filter_orderedInsert_of_eq q x hx, ih, List.filter_cons]
      simp [hx]
    · rw [filter_orderedInsert_of_ne q x hx, ih, List.filter_cons]
      simp [hx]

/-! ### Concrete data of the specification's worked scenario -/

/-- The scenario action `{type: check_activity_health, goal: maintenance,
priority: 0.7}`. -/
def activityAction07 : Action :=
  { type := "check_activity_health", priority := some (7/10), goal := some "maintenance",
    target_repo := some "all", parameters := [], calculated_utility := none }

/-- The scenario action `{type: analyze_organization, goal: understanding,
priority: 1.0}`. -/
def analysisAction10 : Action :=
  { type := "analyze_organization", priority := some 1, goal := some "understanding",
    target_repo := some "all", parameters := [], calculated_utility := none }

/-- Metrics with `outdated_repos = 5`. -/
def metrics5 : HealthMetrics :=
  { total_repos := 5, active_repos := 0, outdated_repos := 5,
    security_alerts := 0, needs_documentation := 0, languages := [] }

/-- A context carrying `metrics5`. -/
def context5 : Context :=
  { repositories := [], health_metrics := some metrics5 }

/-! ### The claims about the prioritizer and the filter -/

/-- C1: each output action's calculated utility is its base priority put
through the specification's three independent sequential conditionals, and
on the worked scenario (outdated count 5) the maintenance action at 0.7
gets 0.84, the understanding action at 1.0 gets 1.1, and the understanding
action is ordered first. -/
theorem claim_C1 :
    (∀ (context : Context) (actions : List Action) (a : Action),
        a ∈ prioritize_actions actions context →
        a.calculated_utility =
          some (claim_utility (get_outdated_repos context.health_metrics) a.goal
            (a.priority.getD (1/2)))) ∧
    prioritize_actions [activityAction07, analysisAction10] context5 =
      [{ analysisAction10 with calculated_utility := some (11/10) },
       { activityAction07 with calculated_utility := some (21/25) }] := by
  constructor
  · intro context actions a ha
    have hmem : a ∈ actions.map (annotate (get_outdated_repos context.health_metrics)) :=
      (List.mem_insertionSort _).mp ha
    rcases List.mem_map.mp hmem with ⟨b, _, rfl⟩
    rfl
  · have h1 : utility_of 5 activityAction07 = 21/25 := by
      simp +decide only [utility_of, activityAction07]
      norm_num
    have h2 : utility_of 5 analysisAction10 = 11/10 := by
      simp +decide only [utility_of, analysisAction10]
      norm_num
    simp only [prioritize_actions, context5, metrics5, get_outdated_repos, List.map_cons,
      List.map_nil, List.insertionSort, List.orderedInsert, annotate, h1, h2]
    rw [if_neg]
    simp only [utilDescRel, utilKey, Option.getD_some]
    norm_num

/-- C1 witness: the annotated understanding action is in the scenario
output and carries exactly the specification-derived utility. -/
theorem claim_C1_witness :
    ({ analysisAction10 with calculated_utility := some (11/10) } : Action).calculated_utility =
      some (claim_utility (get_outdated_repos context5.health_metrics)
        ({ analysisAction10 with calculated_utility := some (11/10) } : Action).goal
        (({ analysisAction10 with
            calculated_utility := some (11/10) } : Action).priority.getD (1/2))) :=
  claim_C1.1 context5 [activityAction07, analysisAction10]
    { analysisAction10 with calculated_utility := some (11/10) }
    (by rw [claim_C1.2]; exact List.mem_cons_self _ _)

/-- C2: the prioritizer's output is a permutation of the annotated input,
is sorted by calculated utility in descending order, and keeps
equal-utility actions in their input order (the filter at each utility
value is unchanged). -/
theorem claim_C2 (context : Context) (actions : List Action) :
    (prioritize_actions actions context).Perm
        (actions.map (annotate (get_outdated_repos context.health_metrics))) ∧
    List.Sorted utilDescRel (prioritize_actions actions context) ∧
    ∀ q : ℚ,
      (prioritize_actions actions context).filter (fun a => decide (utilKey a = q)) =
        (actions.map (annotate (get_outdated_repos context.health_metrics))).filter
          (fun a => decide (utilKey a = q)) :=
  ⟨List.perm_insertionSort utilDescRel _, List.sorted_insertionSort utilDescRel _,
    fun q => filter_insertionSort q _⟩

/-- C8: the prioritizer is idempotent: re-running it on its own output,
recomputing utilities from the stored base priorities, returns the very
same list. -/
theorem claim_C8 (context : Context) (actions : List Action) :
    prioritize_actions (prioritize_actions actions context) context =
      prioritize_actions actions context := by
  unfold prioritize_actions
  have hmap :
      (List.insertionSort utilDescRel
          (actions.map (annotate (get_outdated_repos context.health_metrics)))).map
          (annotate (get_outdated_repos context.health_metrics)) =
        List.insertionSort utilDescRel
          (actions.map (annotate (get_outdated_repos context.health_metrics))) := by
    apply map_eq_self_of_mem
    intro a ha
    rcases List.mem_map.mp ((List.mem_insertionSort _).mp ha) with ⟨b, _, rfl⟩
    exact annotate_annotate _ b
  rw [hmap]
  exact List.Sorted.insertionSort_eq (List.sorted_insertionSort utilDescRel _)

/-- C9: pre-existing calculated-utility values on the input actions have
no influence: inputs equal after erasing that field produce identical
outputs. -/
theorem claim_C9 (context : Context) (l1 l2 : List Action)
    (h : l1.map erase_utility = l2.map erase_utility) :
    prioritize_actions l1 context = prioritize_actions l2 context := by
  unfold prioritize_actions
  have hcomp :
      (annotate (get_outdated_repos context.health_metrics)) ∘ erase_utility =
        annotate (get_outdated_repos context.health_metrics) :=
    funext (annotate_erase _)
  have key : l1.map (annotate (get_outdated_repos context.health_metrics)) =
      l2.map (annotate (get_outdated_repos context.health_metrics)) := by
    rw [← hcomp, ← List.map_map, ← List.map_map, h]
  rw [key]

/-- C9 witness: a stale utility value on an input action does not change
the output. -/
theorem claim_C9_witness :
    prioritize_actions [{ analysisAction10 with calculated_utility := some 5 }] context5 =
      prioritize_actions [analysisAction10] context5 :=
  claim_C9 context5 [{ analysisAction10 with calculated_utility := some 5 }]
    [analysisAction10] rfl

/-- C7: the health-check catalog emits the documentation action iff the
documentation-gap counter is positive, the activity action iff the
outdated counter is positive, and nothing when both are zero. -/
theorem claim_C7 (repos : List Repo) (metrics : Option HealthMetrics) :
    ((∃ a ∈ select_health_actions repos metrics,
        a.type = "check_documentation_health" ∧ a.priority = some (9/10) ∧
          a.goal = some "quality") ↔ 0 < get_needs_documentation metrics) ∧
    ((∃ a ∈ select_health_actions repos metrics,
        a.type = "check_activity_health" ∧ a.priority = some (7/10) ∧
          a.goal = some "maintenance") ↔ 0 < get_outdated_repos metrics) ∧
    (get_needs_documentation metrics = 0 → get_outdated_repos metrics = 0 →
      select_health_actions repos metrics = []) := by
  unfold select_health_actions
  rcases Nat.eq_zero_or_pos (get_needs_documentation metrics) with h1 | h1 <;>
    rcases Nat.eq_zero_or_pos (get_outdated_repos metrics) with h2 | h2 <;>
      simp +decide [h1, h2, Nat.pos_iff_ne_zero, doc_health_action, activity_health_action,
        Nat.ne_of_gt]

/-- C7 witness: with both counters zero the health-check candidate list is
empty. -/
theorem claim_C7_witness :
    select_health_actions [] none = [] :=
  (claim_C7 [] none).2.2 rfl rfl

/-- C6: filtering with target "all" is the identity, filtering never
reorders survivors, and otherwise an action with a scope is retained iff
its scope is "all" or occurs in the comma-split, trimmed target list. -/
theorem claim_C6 (target_repos : String) (actions : List Action) :
    (target_repos = "all" → filter_targets target_repos actions = actions) ∧
    (filter_targets target_repos actions).Sublist actions ∧
    (target_repos ≠ "all" → ∀ (a : Action) (s : String), a.target_repo = some s →
      (a ∈ filter_targets target_repos actions ↔
        a ∈ actions ∧ (s = "all" ∨ s ∈ parse_target_list target_repos))) := by
  refine ⟨?_, ?_, ?_⟩
  · intro h
    simp [filter_targets, h]
  · unfold filter_targets
    split
    · exact List.Sublist.refl _
    · exact List.filter_sublist _
  · intro h a s hs
    rw [filter_targets, if_neg h, List.mem_filter]
    constructor
    · rintro ⟨hmem, hpred⟩
      refine ⟨hmem, ?_⟩
      simp only [target_filter_test, hs, Option.getD_some, Bool.or_eq_true,
        decide_eq_true_eq, Option.some.injEq] at hpred
      tauto
    · rintro ⟨hmem, hcond⟩
      refine ⟨hmem, ?_⟩
      simp only [target_filter_test, hs, Option.getD_some, Bool.or_eq_true,
        decide_eq_true_eq, Option.some.injEq]
      tauto

/-- An action scoped to the repository "repo1". -/
def action_r1 : Action :=
  { type := "analyze_repository", priority := some (8/10), goal := some "maintenance",
    target_repo := some "repo1", parameters := [], calculated_utility := none }

/-- C6 witness: with target "repo1, repo2" the "repo1"-scoped action
survives, and target "all" is the identity. -/
theorem claim_C6_witness :
    action_r1 ∈ filter_targets "repo1, repo2" [action_r1] ∧
      filter_targets "all" [action_r1] = [action_r1] :=
  ⟨((claim_C6 "repo1, repo2" [action_r1]).2.2 (by decide) action_r1 "repo1" rfl).mpr
      ⟨List.mem_cons_self _ _, Or.inr (by decide)⟩,
    (claim_C6 "all" [action_r1]).1 rfl⟩

/-- C10: when the target is not "all", an action with no target-scope
field is kept exactly when the parsed target list contains the literal
name "all". -/
theorem claim_C10 (target_repos : String) (actions : List Action) (a : Action)
    (h : target_repos ≠ "all") (ha : a.target_repo = none) :
    a ∈ filter_targets target_repos actions ↔
      a ∈ actions ∧ "all" ∈ parse_target_list target_repos := by
  rw [filter_targets, if_neg h, List.mem_filter]
  constructor
  · rintro ⟨hmem, hpred⟩
    refine ⟨hmem, ?_⟩
    simp only [target_filter_test, ha, Option.getD_none, Bool.or_eq_true,
      decide_eq_true_eq, reduceCtorEq, or_false] at hpred
    exact hpred
  · rintro ⟨hmem, hcond⟩
    refine ⟨hmem, ?_⟩
    simp only [target_filter_test, ha, Option.getD_none, Bool.or_eq_true,
      decide_eq_true_eq, reduceCtorEq, or_false]
    exact hcond

/-- An action with no target-scope field at all. -/
def action_noscope : Action :=
  { type := "sync_organization_profile", priority := some 1, goal := some "consistency",
    target_repo := none, parameters := [], calculated_utility := none }

/-- C10 witness: with target "all , repo1" (whose parsed list contains the
literal "all") a scope-less action is retained. -/
theorem claim_C10_witness :
    action_noscope ∈ filter_targets "all , repo1" [action_noscope] :=
  (claim_C10 "all , repo1" [action_noscope] action_noscope (by decide) rfl).mpr
    ⟨List.mem_cons_self _ _, by decide⟩

end OpencogSelector
